import Mathlib

/-!
Verification of the custom compliance framework reconciler
(internal/cloud_compliance/custom_framework_resource.go and
custom_framework_resource_helpers.go).

The Go code is shallowly embedded: Terraform plugin values are modelled as
plain data (a `types.String`/`types.Bool`/`types.Set` that may be null or
unknown becomes an `Option`; both the null and the unknown states collapse
to `none`, which is faithful for every code path modelled here because the
source always tests `IsNull() || IsUnknown()` together and `ValueString` /
`ValueBool` return the zero value in both states).  Go maps keyed by
strings are modelled as association lists built with an insert-or-overwrite
operation; iteration order of a Go map is unspecified, the list order of
the model is one admissible order.  Remote API calls are not performed;
each operation is modelled as a pure function that also returns the ordered
list of remote calls it would issue.  Remote responses that the code
consumes (queried control ids, control details, rule ids, minted ids) are
supplied by a `RemoteEnv` of oracle functions, mirroring the success path
of the gateway; the delete path additionally models its failure branches
explicitly because the source handles them specially.
-/

namespace CustomFramework

/-- Association list lookup, modelling `m[k]` on a Go `map[string]V`. -/
def lookupA {α : Type} (m : List (String × α)) (k : String) : Option α :=
  match m with
  | [] => none
  | (k2, v) :: rest => if k2 = k then some v else lookupA rest k

/-- Association list insert-or-overwrite, modelling `m[k] = v` on a Go map. -/
def insertA {α : Type} (m : List (String × α)) (k : String) (v : α) : List (String × α) :=
  match m with
  | [] => [(k, v)]
  | (k2, v2) :: rest => if k2 = k then (k, v) :: rest else (k2, v2) :: insertA rest k v

/-- Model of `ControlModel` (custom_framework_resource.go:69-74).
`rules` is the stored element list of the Terraform set; `none` models a
null or unknown set value. -/
structure ControlModel where
  id : Option String
  name : String
  description : String
  rules : Option (List String)
deriving DecidableEq, Repr

/-- Model of `SectionModel` (custom_framework_resource.go:63-67). -/
structure SectionModel where
  id : Option String
  name : String
  controls : Option (List ControlModel)
deriving DecidableEq, Repr

/-- Model of `cloudComplianceCustomFrameworkResourceModel`
(custom_framework_resource.go:55-61). -/
structure FrameworkModel where
  id : Option String
  name : String
  description : String
  active : Option Bool
  sections : Option (List SectionModel)
deriving DecidableEq, Repr

/-- The map key chosen for a control by `convertTerraformSetToControlsMap`
(custom_framework_resource_helpers.go:202-208): `control.ID.ValueString()`,
falling back to the name when that string is empty (null, unknown and the
empty string all yield `""` from `ValueString`). -/
def controlKey (c : ControlModel) : String :=
  match c.id with
  | some s => if s = "" then c.name else s
  | none => c.name

/-- Model of `convertTerraformSetToControlsMap`
(custom_framework_resource_helpers.go:188-212). -/
def convertTerraformSetToControlsMap (controls : Option (List ControlModel)) :
    List (String × ControlModel) :=
  match controls with
  | none => []
  | some cs => cs.foldl (fun m c => insertA m (controlKey c) c) []

/-- Model of `convertTerraformSetToSectionsMap`
(custom_framework_resource_helpers.go:214-233): keyed by `section.Name`. -/
def convertTerraformSetToSectionsMap (sections : Option (List SectionModel)) :
    List (String × SectionModel) :=
  match sections with
  | none => []
  | some ss => ss.foldl (fun m s => insertA m s.name s) []

/-- Model of `convertControlsMapToTerraformSet`
(custom_framework_resource_helpers.go:127-155): emits the map values in
iteration order, copying each control field for field. -/
def convertControlsMapToTerraformSet (m : List (String × ControlModel)) :
    List ControlModel :=
  m.map (fun kv => kv.2)

/-- Model of `convertSectionsMapToTerraformSet`
(custom_framework_resource_helpers.go:157-184): emits the map values with
the `Name` field overwritten by the map key. -/
def convertSectionsMapToTerraformSet (m : List (String × SectionModel)) :
    List SectionModel :=
  m.map (fun kv => SectionModel.mk kv.2.id kv.1 kv.2.controls)

/-- The full decode direction of the tree codec: the client tree becomes a
sections map whose entries carry the section id and the decoded controls
map, composing `convertTerraformSetToSectionsMap` with
`convertTerraformSetToControlsMap` exactly as the reconciler does when it
materialises its internal maps. -/
def decodeTree (t : Option (List SectionModel)) :
    List (String × Option String × List (String × ControlModel)) :=
  (convertTerraformSetToSectionsMap t).map
    (fun kv => (kv.1, kv.2.id, convertTerraformSetToControlsMap kv.2.controls))

/-- The full encode direction of the tree codec, composing
`convertControlsMapToTerraformSet` with `convertSectionsMapToTerraformSet`. -/
def encodeTree (m : List (String × Option String × List (String × ControlModel))) :
    Option (List SectionModel) :=
  some (convertSectionsMapToTerraformSet
    (m.map (fun t => (t.1, SectionModel.mk t.2.1 t.1
      (some (convertControlsMapToTerraformSet t.2.2))))))

/-! ## Deterministic section identifiers

`generateDeterministicUUID` (custom_framework_resource_helpers.go:32-39)
calls `uuid.NewSHA1(namespace, []byte(frameworkName + ":" + sectionName))`,
i.e. a version-5 UUID: the first 16 bytes of `SHA1(namespace ++ data)` with
the version nibble forced to 5 and the variant bits to `10`.  SHA-1 and the
UUID byte/string layout are implemented here over `Nat` bytes so the
derivation is executable and exactly the library computation. -/

/-- UTF-8 encoding of one character, as a list of byte values. -/
def utf8Char (c : Char) : List Nat :=
  let n := c.toNat
  if n < 128 then [n]
  else if n < 2048 then [192 + n / 64, 128 + n % 64]
  else if n < 65536 then [224 + n / 4096, 128 + (n / 64) % 64, 128 + n % 64]
  else [240 + n / 262144, 128 + (n / 4096) % 64, 128 + (n / 64) % 64, 128 + n % 64]

/-- UTF-8 bytes of a string (`[]byte(s)` in Go). -/
def utf8Bytes (s : String) : List Nat :=
  s.data.flatMap utf8Char

/-- 32-bit left rotation on a `Nat` below `2 ^ 32`. -/
def rotl32 (n x : Nat) : Nat :=
  ((x <<< n) ||| (x >>> (32 - n))) % 4294967296

/-- Big-endian bytes of a 32-bit word. -/
def beBytes4 (x : Nat) : List Nat :=
  [(x >>> 24) % 256, (x >>> 16) % 256, (x >>> 8) % 256, x % 256]

/-- Big-endian bytes of a 64-bit value. -/
def beBytes8 (x : Nat) : List Nat :=
  [(x >>> 56) % 256, (x >>> 48) % 256, (x >>> 40) % 256, (x >>> 32) % 256,
   (x >>> 24) % 256, (x >>> 16) % 256, (x >>> 8) % 256, x % 256]

/-- A 32-bit word from four big-endian bytes. -/
def fromBytesBE (bs : List Nat) : Nat :=
  bs.foldl (fun a b => a * 256 + b) 0

/-- SHA-1 message padding: `0x80`, zeros to 56 mod 64, 64-bit bit length. -/
def sha1Pad (msg : List Nat) : List Nat :=
  msg ++ [128] ++ List.replicate ((119 - msg.length % 64) % 64) 0
      ++ beBytes8 (msg.length * 8)

/-- Split a byte list into 64-byte chunks. -/
def chunks64 (l : List Nat) : List (List Nat) :=
  if h : l = [] then []
  else l.take 64 :: chunks64 (l.drop 64)
termination_by l.length
decreasing_by
  have hpos : 0 < l.length := List.length_pos.mpr h
  simp [List.length_drop]
  omega

/-- SHA-1 message schedule: extend 16 words to 80. -/
def sha1Extend (init : List Nat) : List Nat :=
  (List.range 64).foldl
    (fun w _ =>
      let m := w.length
      let x := ((w.getD (m - 3) 0) ^^^ (w.getD (m - 8) 0)) ^^^
               ((w.getD (m - 14) 0) ^^^ (w.getD (m - 16) 0))
      w ++ [rotl32 1 x])
    init

/-- One SHA-1 round. -/
def sha1Round (st : Nat × Nat × Nat × Nat × Nat) (iw : Nat × Nat) :
    Nat × Nat × Nat × Nat × Nat :=
  match st, iw with
  | (a, b, c, d, e), (i, wi) =>
    let fk :=
      if i < 20 then ((b &&& c) ||| ((b ^^^ 4294967295) &&& d), 1518500249)
      else if i < 40 then ((b ^^^ c) ^^^ d, 1859775393)
      else if i < 60 then ((b &&& c) ||| (b &&& d) ||| (c &&& d), 2400959708)
      else ((b ^^^ c) ^^^ d, 3395469782)
    let temp := (rotl32 5 a + fk.1 + e + fk.2 + wi) % 4294967296
    (temp, a, rotl32 30 b, c, d)

/-- SHA-1 compression of one 64-byte chunk into the running state. -/
def sha1Compress (h : List Nat) (chunk : List Nat) : List Nat :=
  let w0 := (List.range 16).map (fun i => fromBytesBE ((chunk.drop (4 * i)).take 4))
  let w := sha1Extend w0
  let st0 := (h.getD 0 0, h.getD 1 0, h.getD 2 0, h.getD 3 0, h.getD 4 0)
  let st := (w.enum).foldl sha1Round st0
  [(h.getD 0 0 + st.1) % 4294967296,
   (h.getD 1 0 + st.2.1) % 4294967296,
   (h.getD 2 0 + st.2.2.1) % 4294967296,
   (h.getD 3 0 + st.2.2.2.1) % 4294967296,
   (h.getD 4 0 + st.2.2.2.2) % 4294967296]

/-- SHA-1 digest (20 bytes) of a byte list. -/
def sha1 (msg : List Nat) : List Nat :=
  let hs := (chunks64 (sha1Pad msg)).foldl sha1Compress
    [1732584193, 4023233417, 2562383102, 271733878, 3285377520]
  hs.flatMap beBytes4

/-- Hex digit character for a value below 16 (lowercase, as `uuid.String`). -/
def nibbleHex (n : Nat) : Char :=
  if n < 10 then Char.ofNat (48 + n) else Char.ofNat (87 + n)

/-- Two hex digits of one byte. -/
def byteHex (b : Nat) : List Char :=
  [nibbleHex (b / 16), nibbleHex (b % 16)]

/-- Canonical 8-4-4-4-12 string of 16 UUID bytes. -/
def uuidStringOfBytes (bs : List Nat) : String :=
  String.mk ((bs.take 4).flatMap byteHex ++ [Char.ofNat 45]
    ++ ((bs.drop 4).take 2).flatMap byteHex ++ [Char.ofNat 45]
    ++ ((bs.drop 6).take 2).flatMap byteHex ++ [Char.ofNat 45]
    ++ ((bs.drop 8).take 2).flatMap byteHex ++ [Char.ofNat 45]
    ++ (bs.drop 10).flatMap byteHex)

/-- Force the version-5 and variant bits, as `uuid.NewHash` does:
`u[6] = (u[6] & 0x0f) | 0x50` and `u[8] = (u[8] & 0x3f) | 0x80`. -/
def uuidSetBits (h : List Nat) : List Nat :=
  h.take 6 ++ [((h.getD 6 0) &&& 15) ||| 80] ++ [h.getD 7 0]
    ++ [((h.getD 8 0) &&& 63) ||| 128] ++ (h.drop 9).take 7

/-- Version-5 (SHA-1) UUID of `data` in namespace `ns`, rendered as the
canonical lowercase string. -/
def uuidVersion5 (ns data : List Nat) : String :=
  uuidStringOfBytes (uuidSetBits ((sha1 (ns ++ data)).take 16))

/-- Bytes of the fixed namespace constant
`a1b2c3d4-e5f6-7890-abcd-ef1234567890`
(`crowdStrikeComplianceNamespace`, custom_framework_resource_helpers.go:32). -/
def complianceNamespaceBytes : List Nat :=
  [161, 178, 195, 212, 229, 246, 120, 144, 171, 205, 239, 18, 52, 86, 120, 144]

/-- Model of `generateDeterministicUUID`
(custom_framework_resource_helpers.go:35-39). -/
def generateDeterministicUUID (frameworkName sectionName : String) : String :=
  uuidVersion5 complianceNamespaceBytes (utf8Bytes (frameworkName ++ ":" ++ sectionName))

/-! ## Remote calls and the differential control reconciler -/

/-- One remote API call, with the request data the source passes to the
gateway. -/
inductive RemoteCall where
  | createFramework (name descr : String) (active : Bool)
  | updateFramework (id name descr : String) (active : Bool)
  | deleteFramework (id : String)
  | getFramework (id : String)
  | queryControls (frameworkName : String)
  | getControls (ids : List String)
  | createControl (frameworkID sectionName controlName descr : String)
  | updateControl (id newName : String)
  | deleteControl (ids : List String)
  | replaceRules (controlID : String) (ruleIDs : List String)
  | queryRules (frameworkName sectionName requirement : String)
  | renameSection (frameworkID oldName newName : String)
deriving DecidableEq, Repr

/-- Model of `buildExistingControlsMap` (custom_framework_resource.go:918-935):
each state section's controls set decoded into its map. -/
def buildExistingControlsMap (stateSections : List (String × SectionModel)) :
    List (String × List (String × ControlModel)) :=
  stateSections.map (fun kv => (kv.1, convertTerraformSetToControlsMap kv.2.controls))

/-- Model of `buildControlsByIDMap` (custom_framework_resource.go:1038-1052):
a flat map over every existing control, keyed by its id when the id is
known. -/
def buildControlsByIDMap (existingControls : List (String × List (String × ControlModel))) :
    List (String × ControlModel) :=
  (existingControls.flatMap (fun sc => sc.2.map (fun kv => kv.2))).foldl
    (fun acc c =>
      match c.id with
      | some s => insertA acc s c
      | none => acc)
    []

/-- The create branch of `processControlUpdates`, i.e.
`createSingleControlAndReturn` (custom_framework_resource.go:632-694): one
control-create call, then one rule-replacement call when the plan rule set
is non-null and non-empty.  `mint` supplies the remote-assigned id of the
`n`-th created control. -/
def createNewControl (mint : Nat → String) (fid sectionName key : String)
    (pc : ControlModel) (n : Nat) : ControlModel × List RemoteCall × Nat :=
  let nid := mint n
  (ControlModel.mk (some nid) key pc.description pc.rules,
   RemoteCall.createControl fid sectionName key pc.description ::
     (match pc.rules with
      | some (r :: rs) => [RemoteCall.replaceRules nid (r :: rs)]
      | some [] => []
      | none => []),
   n + 1)

/-- The body of the inner loop of `processControlUpdates`
(custom_framework_resource.go:960-1018) for one plan control, where `key`
is the plan controls map key.  A plan control with a known id found in the
by-id index takes the update branch: `updateExistingControl`
(custom_framework_resource.go:1054-1079) always issues one control-update
call carrying the map key as the new name, and `updateControlRules`
(custom_framework_resource.go:1081-1113) issues one wholesale
rule-replacement call exactly when `existingControl.Rules.Equal(planControl.Rules)`
is false — `types.Set.Equal` compares the stored element lists index by
index, which the `rules` model field captures.  Any other plan control
takes the create branch. -/
def processOneControl (mint : Nat → String) (fid sectionName key : String)
    (pc : ControlModel) (byID : List (String × ControlModel)) (n : Nat) :
    ControlModel × List RemoteCall × Nat :=
  match pc.id with
  | some cid =>
    match lookupA byID cid with
    | some ec =>
      (ControlModel.mk ec.id key pc.description pc.rules,
       RemoteCall.updateControl (ec.id.getD "") key ::
         (if ec.rules == pc.rules then []
          else [RemoteCall.replaceRules cid (pc.rules.getD [])]),
       n)
    | none => createNewControl mint fid sectionName key pc n
  | none => createNewControl mint fid sectionName key pc n

/-- The inner loop of `processControlUpdates` over one decoded plan controls
map, accumulating the updated controls map and the calls in order. -/
def processControls (mint : Nat → String) (fid sectionName : String)
    (byID : List (String × ControlModel)) :
    List (String × ControlModel) → Nat →
      List (String × ControlModel) × List RemoteCall × Nat
  | [], n => ([], [], n)
  | (key, pc) :: rest, n =>
    let r1 := processOneControl mint fid sectionName key pc byID n
    let r2 := processControls mint fid sectionName byID rest r1.2.2
    ((key, r1.1) :: r2.1, r1.2.1 ++ r2.2.1, r2.2.2)

/-- The outer loop of `processControlUpdates`
(custom_framework_resource.go:950-1032): each plan section's controls set is
decoded and processed; the updated section is rebuilt with a null id, the
section name, and the re-encoded updated controls. -/
def processSections (mint : Nat → String) (fid : String)
    (byID : List (String × ControlModel)) :
    List (String × SectionModel) → Nat →
      List (String × SectionModel) × List RemoteCall × Nat
  | [], n => ([], [], n)
  | (sectionName, sec) :: rest, n =>
    let pcs := convertTerraformSetToControlsMap sec.controls
    let r1 := processControls mint fid sectionName byID pcs n
    let outSec := SectionModel.mk none sectionName
      (some (convertControlsMapToTerraformSet r1.1))
    let r2 := processSections mint fid byID rest r1.2.2
    ((sectionName, outSec) :: r2.1, r1.2.1 ++ r2.2.1, r2.2.2)

/-- Model of `processControlUpdates` (custom_framework_resource.go:937-1035). -/
def processControlUpdates (mint : Nat → String) (fid : String)
    (existingControls : List (String × List (String × ControlModel)))
    (planSections : List (String × SectionModel)) :
    List (String × SectionModel) × List RemoteCall × Nat :=
  processSections mint fid (buildControlsByIDMap existingControls) planSections 0

/-- The survival test of `deleteRemovedControls`
(custom_framework_resource.go:1126-1135): the state section name must still
be a plan section, and the state controls map key must still be a key of
that plan section's decoded controls map. -/
def controlStillExists (planSections : List (String × SectionModel))
    (sectionName controlName : String) : Bool :=
  match lookupA planSections sectionName with
  | some psec => (lookupA (convertTerraformSetToControlsMap psec.controls) controlName).isSome
  | none => false

/-- Model of `deleteRemovedControls` (custom_framework_resource.go:1115-1151):
every state control that fails the survival test gets one control-delete
call with its id. -/
def deleteRemovedControls (existingControls : List (String × List (String × ControlModel)))
    (planSections : List (String × SectionModel)) : List RemoteCall :=
  existingControls.flatMap (fun sc =>
    sc.2.filterMap (fun kv =>
      if controlStillExists planSections sc.1 kv.1 then none
      else some (RemoteCall.deleteControl [kv.2.id.getD ""])))

/-- Model of `updateControlsForFramework`
(custom_framework_resource.go:884-915): build the existing-controls map,
process the plan, then delete the removed controls; the first component is
the updated sections map (the source finally re-encodes it), the second the
ordered calls. -/
def updateControlsForFramework (mint : Nat → String) (fid : String)
    (stateSections planSections : List (String × SectionModel)) :
    List (String × SectionModel) × List RemoteCall :=
  let existing := buildExistingControlsMap stateSections
  let r := processControlUpdates mint fid existing planSections
  (r.1, r.2.1 ++ deleteRemovedControls existing planSections)

/-- The accumulator loop of `detectSectionRenames`
(custom_framework_resource.go:1153-1174): for each plan map entry whose key
is also a state map key, compare the two `Name` fields and record a rename
when they differ. -/
def detectGo (stateSections : List (String × SectionModel)) :
    List (String × SectionModel) → List (String × String) → List (String × String)
  | [], acc => acc
  | (k, ps) :: rest, acc =>
    let acc2 :=
      match lookupA stateSections k with
      | some ss => if ss.name = ps.name then acc else insertA acc ss.name ps.name
      | none => acc
    detectGo stateSections rest acc2

/-- Model of `detectSectionRenames` (custom_framework_resource.go:1153-1174). -/
def detectSectionRenames (stateSections planSections : List (String × SectionModel)) :
    List (String × String) :=
  detectGo stateSections planSections []

/-- Model of `handleSectionRenames` (custom_framework_resource.go:1176-1207):
one bulk section-rename call per detected rename. -/
def handleSectionRenames (fid : String)
    (stateSections planSections : List (String × SectionModel)) : List RemoteCall :=
  (detectSectionRenames stateSections planSections).map
    (fun r => RemoteCall.renameSection fid r.1 r.2)

/-- Model of `validateActiveFieldTransition`
(custom_framework_resource.go:1234-1246); `true` means the transition is
rejected: the current value is non-null and `true` while the new value's
`ValueBool()` is `false`. -/
def validateActiveFieldTransition (cur new : Option Bool) : Bool :=
  cur == some true && !(new.getD false)

/-! ## Lifecycle operations -/

/-- Model of a `*models.ApimodelsControl` returned by the gateway. -/
structure ApiControl where
  uuid : String
  name : String
  description : String
  sectionName : String
  requirement : String
deriving DecidableEq, Repr

/-- The success-path responses of the Remote Control Gateway consumed by the
lifecycle operations, as oracle data: the framework id minted by
`CreateComplianceFramework`, the framework name echoed by
`GetComplianceFrameworks`, the id minted for the `n`-th created control,
the control ids matching the by-framework-name query, the control details,
and the rule ids matching the per-control rule query. -/
structure RemoteEnv where
  frameworkId : String
  remoteName : String
  mint : Nat → String
  queryControls : String → List String
  getControls : List String → List ApiControl
  queryRules : String → String → String → List String

/-- Model of `readControlWithRules` (custom_framework_resource.go:854-881):
one rule query per control, producing the control model. -/
def readControlWithRules (env : RemoteEnv) (frameworkName : String)
    (c : ApiControl) : ControlModel :=
  ControlModel.mk (some c.uuid) c.name c.description
    (some (env.queryRules frameworkName c.sectionName c.requirement))

/-- Nested map insert of `readControlsForFramework`
(custom_framework_resource.go:726-743):
`sectionToControlsMap[sectionName][controlName] = controlModel`. -/
def insertNested (m : List (String × List (String × ControlModel)))
    (sectionName controlName : String) (c : ControlModel) :
    List (String × List (String × ControlModel)) :=
  match lookupA m sectionName with
  | some cs => insertA m sectionName (insertA cs controlName c)
  | none => insertA m sectionName [(controlName, c)]

/-- The grouping loop of `readControlsForFramework`
(custom_framework_resource.go:726-743). -/
def buildSectionToControls (env : RemoteEnv) (frameworkName : String)
    (apiControls : List ApiControl) : List (String × List (String × ControlModel)) :=
  apiControls.foldl
    (fun m c => insertNested m c.sectionName c.name (readControlWithRules env frameworkName c))
    []

/-- The sections-map construction of `readControlsForFramework`
(custom_framework_resource.go:754-778): the section id is the prior state's
id for a section of the same name when that id is known, else the
deterministic UUID of the framework and section names. -/
def buildReadSections (frameworkName : String)
    (existingSections : List (String × SectionModel))
    (s2c : List (String × List (String × ControlModel))) :
    List (String × SectionModel) :=
  s2c.foldl
    (fun m sc =>
      let sid :=
        match lookupA existingSections sc.1 with
        | some es =>
          match es.id with
          | some i => some i
          | none => some (generateDeterministicUUID frameworkName sc.1)
        | none => some (generateDeterministicUUID frameworkName sc.1)
      insertA m sc.1 (SectionModel.mk sid sc.1
        (some (convertControlsMapToTerraformSet sc.2))))
    []

/-- Model of `readControlsForFramework`
(custom_framework_resource.go:696-784) on the success path: the queried
control ids, the control details, one rule query per control, then the
re-grouped sections; returns the resulting client sections list and the
ordered calls. -/
def readControlsOp (env : RemoteEnv) (frameworkName : String)
    (existingSections : Option (List SectionModel)) :
    List SectionModel × List RemoteCall :=
  let ids := env.queryControls frameworkName
  if ids.isEmpty then
    ([], [RemoteCall.queryControls frameworkName])
  else
    let apiControls := env.getControls ids
    let ruleCalls := apiControls.map
      (fun c => RemoteCall.queryRules frameworkName c.sectionName c.requirement)
    let s2c := buildSectionToControls env frameworkName apiControls
    let existing := convertTerraformSetToSectionsMap existingSections
    (convertSectionsMapToTerraformSet (buildReadSections frameworkName existing s2c),
     RemoteCall.queryControls frameworkName :: RemoteCall.getControls ids :: ruleCalls)

/-- Model of `Read` (custom_framework_resource.go:321-383) on the success
path: fetch the framework by id, then read its controls with the state
sections as the prior state. -/
def readOp (env : RemoteEnv) (st : FrameworkModel) :
    List SectionModel × List RemoteCall :=
  let r := readControlsOp env env.remoteName st.sections
  (r.1, RemoteCall.getFramework (st.id.getD "") :: r.2)

/-- One step in the Create path, distinguishing the durable-state write of
the framework id (`resp.State.SetAttribute` at
custom_framework_resource.go:264-265) from remote calls. -/
inductive CreateEvent where
  | remote (c : RemoteCall)
  | persistFrameworkId (id : String)
deriving DecidableEq, Repr

/-- The per-section create loop of `createControlsForFramework`
(custom_framework_resource.go:593-629): each decoded control goes through
`createSingleControlAndReturn`. -/
def createSectionControls (mint : Nat → String) (fid sectionName : String) :
    List (String × ControlModel) → Nat → List RemoteCall × Nat
  | [], n => ([], n)
  | (key, pc) :: rest, n =>
    let r1 := createNewControl mint fid sectionName key pc n
    let r2 := createSectionControls mint fid sectionName rest r1.2.2
    (r1.2.1 ++ r2.1, r2.2)

/-- `createControlsForFramework` over the whole sections map. -/
def createAllControls (mint : Nat → String) (fid : String) :
    List (String × SectionModel) → Nat → List RemoteCall × Nat
  | [], n => ([], n)
  | (sectionName, sec) :: rest, n =>
    let pcs := convertTerraformSetToControlsMap sec.controls
    let r1 := createSectionControls mint fid sectionName pcs n
    let r2 := createAllControls mint fid rest r1.2
    (r1.1 ++ r2.1, r2.2)

/-- Model of `Create` (custom_framework_resource.go:231-318) on the success
path, as its ordered event trace: the framework-create call, then the
durable persist of the remote-assigned framework id, then (when sections
are supplied) the control creates and rule assignments.  The deterministic
section-id assignment loop (lines 284-290) only rewrites local state and
issues no call. -/
def createOp (env : RemoteEnv) (plan : FrameworkModel) : List CreateEvent :=
  CreateEvent.remote (RemoteCall.createFramework plan.name plan.description
      (plan.active.getD false)) ::
  CreateEvent.persistFrameworkId env.frameworkId ::
  (match plan.sections with
   | none => []
   | some _ =>
     ((createAllControls env.mint env.frameworkId
        (convertTerraformSetToSectionsMap plan.sections) 0).1).map CreateEvent.remote)

/-- Model of `deleteControlsForFramework`
(custom_framework_resource.go:1208-1230) on the query success path: the
name-based control query, then one delete call covering every returned id
(a failure of that delete only adds a warning, the call itself is always
issued). -/
def deleteControlsForFrameworkCalls (env : RemoteEnv) (frameworkName : String) :
    List RemoteCall :=
  [RemoteCall.queryControls frameworkName,
   RemoteCall.deleteControl (env.queryControls frameworkName)]

/-- Model of `Update` (custom_framework_resource.go:386-484) on the remote
success path: the active-flag validation runs first and a violation rejects
the whole update with no remote call; otherwise the framework update call
is issued, then the differential control reconciliation (or the wholesale
control teardown when the plan has no sections but the state does), then
the read-back of controls when the plan has sections.  Returns the ordered
calls and whether the update was accepted. -/
def updateOp (env : RemoteEnv) (state plan : FrameworkModel) :
    List RemoteCall × Bool :=
  if validateActiveFieldTransition state.active plan.active then ([], false)
  else
    let fwCall := RemoteCall.updateFramework (plan.id.getD "") plan.name
      plan.description (plan.active.getD false)
    match plan.sections with
    | some _ =>
      let planSections := convertTerraformSetToSectionsMap plan.sections
      let stateSections := convertTerraformSetToSectionsMap state.sections
      let upd := updateControlsForFramework env.mint (plan.id.getD "")
        stateSections planSections
      let rd := readControlsOp env plan.name state.sections
      (fwCall :: (upd.2 ++ rd.2), true)
    | none =>
      match state.sections with
      | some _ => (fwCall :: deleteControlsForFrameworkCalls env plan.name, true)
      | none => ([fwCall], true)

/-- Outcome of the framework-delete call in `Delete`. -/
inductive DeleteOutcome where
  | success
  | notFound
  | failure
deriving DecidableEq, Repr

/-- Model of `Delete` (custom_framework_resource.go:487-539) with its
error handling made explicit: `queryRes` is the result of the name-based
control query, `controlsDeleteOk` whether the bulk control delete
succeeded, `fwRes` the outcome of the framework delete.  Returns the
ordered calls, whether the whole delete succeeded, and the accumulated
warnings.  A failed control query aborts before the framework delete; a
failed control delete only adds a warning
(custom_framework_resource.go:1220-1227); a `NotFound` framework delete is
treated as success (custom_framework_resource.go:514-520). -/
def deleteOp (queryRes : Except Unit (List String)) (controlsDeleteOk : Bool)
    (fwRes : DeleteOutcome) (st : FrameworkModel) :
    List RemoteCall × Bool × List String :=
  match queryRes with
  | Except.error _ => ([RemoteCall.queryControls st.name], false, [])
  | Except.ok ids =>
    let warns := if controlsDeleteOk then [] else ["Error Deleting Controls"]
    let calls := [RemoteCall.queryControls st.name, RemoteCall.deleteControl ids,
      RemoteCall.deleteFramework (st.id.getD "")]
    match fwRes with
    | DeleteOutcome.success => (calls, true, warns)
    | DeleteOutcome.notFound => (calls, true, warns)
    | DeleteOutcome.failure => (calls, false, warns)

/-! ## Classifiers, spec-side definitions and concrete scenarios -/

/-- Is this call the bulk section-rename call? -/
def isRenameCall : RemoteCall → Bool
  | RemoteCall.renameSection _ _ _ => true
  | _ => false

/-- No bulk section-rename call occurs in the list. -/
def noRenames (l : List RemoteCall) : Bool :=
  l.all (fun c => !isRenameCall c)

/-- Is this call a control update? -/
def isControlUpdateCall : RemoteCall → Bool
  | RemoteCall.updateControl _ _ => true
  | _ => false

/-- Is this event a durable persist of the framework id? -/
def isPersistEvent : CreateEvent → Bool
  | CreateEvent.persistFrameworkId _ => true
  | _ => false

/-- Is this event a control-create or rule-assignment remote call? -/
def isControlOpEvent : CreateEvent → Bool
  | CreateEvent.remote (RemoteCall.createControl _ _ _ _) => true
  | CreateEvent.remote (RemoteCall.replaceRules _ _) => true
  | _ => false

/-- Number of rule-replacement calls for control `x` in the list. -/
def countReplaceFor (x : String) (calls : List RemoteCall) : Nat :=
  calls.countP (fun c =>
    match c with
    | RemoteCall.replaceRules i _ => i == x
    | _ => false)

/-- All plan controls of all plan sections, decoded, in plan order. -/
def planControlsFlat (planSections : List (String × SectionModel)) :
    List (String × ControlModel) :=
  planSections.flatMap (fun sp => convertTerraformSetToControlsMap sp.2.controls)

/-- How many rule-replacement calls for control id `cid` one plan control
contributes on the update path (the create path is accounted separately via
the minted-id hypothesis). -/
def contrib (byID : List (String × ControlModel)) (cid : String)
    (pc : ControlModel) : Nat :=
  match pc.id with
  | some c2 =>
    if c2 = cid then
      match lookupA byID cid with
      | some ec => if ec.rules == pc.rules then 0 else 1
      | none => 0
    else 0
  | none => 0

/-- Spec-side set equality of two rule collections, following the spec's
words: the same elements regardless of order, a null collection standing
for the empty set. -/
def specRulesSetEq (a b : Option (List String)) : Bool :=
  (a.getD []).all (fun x => (b.getD []).contains x) &&
  (b.getD []).all (fun x => (a.getD []).contains x)

/-- Spec-side expected section identifier on a read, following the claim's
words: the identifier recorded in the prior state for a section of the same
name when one exists there, otherwise the version-5 (SHA-1) UUID of
`"<frameworkName>:<sectionName>"` under the fixed namespace constant. -/
def specSectionId (frameworkName : String)
    (priorSections : List (String × SectionModel)) (sectionName : String) : String :=
  match lookupA priorSections sectionName with
  | some es =>
    match es.id with
    | some i => i
    | none => uuidVersion5 complianceNamespaceBytes
        (utf8Bytes (frameworkName ++ ":" ++ sectionName))
  | none => uuidVersion5 complianceNamespaceBytes
      (utf8Bytes (frameworkName ++ ":" ++ sectionName))

/-- A deterministic id mint for concrete scenarios. -/
def mintDefault (n : Nat) : String :=
  "created-" ++ toString n

/-- Scenario: one observed control with id `X` in section `S1`. -/
def oneControlState : List (String × SectionModel) :=
  convertTerraformSetToSectionsMap
    (some [SectionModel.mk (some "sid") "S1"
      (some [ControlModel.mk (some "X") "a" "d" (some [])])])

/-- Scenario: the same control, same name, moved to section `S2`. -/
def sectionMovePlan : List (String × SectionModel) :=
  convertTerraformSetToSectionsMap
    (some [SectionModel.mk (some "sid2") "S2"
      (some [ControlModel.mk (some "X") "a" "d" (some [])])])

/-- Scenario: two observed controls `A` and `B` in section `S`. -/
def twoControlState : List (String × SectionModel) :=
  convertTerraformSetToSectionsMap
    (some [SectionModel.mk (some "sid") "S"
      (some [ControlModel.mk (some "A") "a" "da" (some []),
             ControlModel.mk (some "B") "b" "db" (some [])])])

/-- Scenario: the same two controls, unchanged, under the renamed section
`T` (each desired control carries its existing identifier). -/
def sectionRenamePlan : List (String × SectionModel) :=
  convertTerraformSetToSectionsMap
    (some [SectionModel.mk (some "sid") "T"
      (some [ControlModel.mk (some "A") "a" "da" (some []),
             ControlModel.mk (some "B") "b" "db" (some [])])])

/-- Scenario: one observed control with id `X`, name `a`, rules `[r1, r2]`
in section `S1`. -/
def rulesState : List (String × SectionModel) :=
  convertTerraformSetToSectionsMap
    (some [SectionModel.mk (some "sid") "S1"
      (some [ControlModel.mk (some "X") "a" "d" (some ["r1", "r2"])])])

/-- Scenario: the same control with its rule set cleared, nothing else
changed. -/
def rulesClearedPlan : List (String × SectionModel) :=
  convertTerraformSetToSectionsMap
    (some [SectionModel.mk (some "sid") "S1"
      (some [ControlModel.mk (some "X") "a" "d" (some [])])])

/-- Scenario: the same control with the same rule set stored in the
opposite order. -/
def rulesReorderedPlan : List (String × SectionModel) :=
  convertTerraformSetToSectionsMap
    (some [SectionModel.mk (some "sid") "S1"
      (some [ControlModel.mk (some "X") "a" "d" (some ["r2", "r1"])])])

/-- The remote call carried by a create event, if any. -/
def eventCall : CreateEvent → Option RemoteCall
  | CreateEvent.remote c => some c
  | CreateEvent.persistFrameworkId _ => none

/-- A constant mint whose ids never collide with the scenario control id. -/
def mintY (_ : Nat) : String :=
  "Y"

/-- A trivial oracle environment for concrete scenarios. -/
def envTrivial : RemoteEnv :=
  RemoteEnv.mk "fw0" "name0" mintDefault (fun _ => []) (fun _ => []) (fun _ _ _ => [])

/-- Scenario framework: active, no sections. -/
def fwActiveTrue : FrameworkModel :=
  FrameworkModel.mk (some "id1") "n" "d" (some true) none

/-- Scenario framework: inactive, no sections. -/
def fwActiveFalse : FrameworkModel :=
  FrameworkModel.mk (some "id1") "n" "d" (some false) none

/-! ## Association list lemmas -/

theorem lookupA_insertA {α : Type} (m : List (String × α)) (k k2 : String) (v : α) :
    lookupA (insertA m k v) k2 = if k = k2 then some v else lookupA m k2 := by
  induction m with
  | nil => simp [insertA, lookupA]
  | cons hd tl ih =>
    by_cases h1 : hd.1 = k
    · simp [insertA, h1, lookupA]
      by_cases h2 : k = k2 <;> simp [h2]
    · obtain ⟨hk, hv⟩ := hd
      simp only at h1
      simp [insertA, h1, lookupA]
      by_cases h2 : hk = k2
      · subst h2
        have : ¬ k = hk := fun he => h1 he.symm
        simp [this, lookupA]
      · simp [h2, ih]

theorem mem_insertA {α : Type} {m : List (String × α)} {k : String} {v : α}
    {x : String × α} (hx : x ∈ insertA m k v) : x = (k, v) ∨ x ∈ m := by
  induction m with
  | nil => simpa [insertA] using hx
  | cons hd tl ih =>
    by_cases h1 : hd.1 = k
    · obtain ⟨hk, hv⟩ := hd
      simp only at h1
      simp [insertA, h1] at hx
      rcases hx with hx | hx
      · exact Or.inl hx
      · exact Or.inr (List.mem_cons_of_mem _ hx)
    · obtain ⟨hk, hv⟩ := hd
      simp only at h1
      simp [insertA, h1] at hx
      rcases hx with hx | hx
      · exact Or.inr (by simp [hx])
      · rcases ih hx with h | h
        · exact Or.inl h
        · exact Or.inr (List.mem_cons_of_mem _ h)

theorem lookupA_mem {α : Type} {m : List (String × α)} {k : String} {v : α}
    (h : lookupA m k = some v) : (k, v) ∈ m := by
  induction m with
  | nil => simp [lookupA] at h
  | cons hd tl ih =>
    obtain ⟨hk, hv⟩ := hd
    by_cases h1 : hk = k
    · subst h1
      simp [lookupA] at h
      simp [h]
    · simp [lookupA, h1] at h
      exact List.mem_cons_of_mem _ (ih h)

/-- Invariant of the by-name sections decode: every entry's `name` equals
its key. -/
theorem sectionsMap_name_eq_key (t : Option (List SectionModel)) :
    ∀ kv ∈ convertTerraformSetToSectionsMap t, kv.2.name = kv.1 := by
  match t with
  | none => simp [convertTerraformSetToSectionsMap]
  | some ss =>
    simp only [convertTerraformSetToSectionsMap]
    suffices h : ∀ (l : List SectionModel) (acc : List (String × SectionModel)),
        (∀ kv ∈ acc, kv.2.name = kv.1) →
        ∀ kv ∈ l.foldl (fun m s => insertA m s.name s) acc, kv.2.name = kv.1 by
      exact h ss [] (by simp)
    intro l
    induction l with
    | nil => intro acc hacc kv hkv; exact hacc kv hkv
    | cons s rest ih =>
      intro acc hacc kv hkv
      refine ih (insertA acc s.name s) ?_ kv hkv
      intro kv2 hkv2
      rcases mem_insertA hkv2 with h | h
      · subst h; rfl
      · exact hacc kv2 h

/-- Invariant of the by-id index: every entry's stored id is its key. -/
theorem byID_id_eq_key (e : List (String × List (String × ControlModel))) :
    ∀ kv ∈ buildControlsByIDMap e, kv.2.id = some kv.1 := by
  simp only [buildControlsByIDMap]
  suffices h : ∀ (l : List ControlModel) (acc : List (String × ControlModel)),
      (∀ kv ∈ acc, kv.2.id = some kv.1) →
      ∀ kv ∈ l.foldl (fun acc c =>
          match c.id with
          | some s => insertA acc s c
          | none => acc) acc, kv.2.id = some kv.1 by
    exact h _ [] (by simp)
  intro l
  induction l with
  | nil => intro acc hacc kv hkv; exact hacc kv hkv
  | cons c rest ih =>
    intro acc hacc kv hkv
    simp only [List.foldl_cons] at hkv
    match hc : c.id with
    | some s =>
      rw [hc] at hkv
      refine ih (insertA acc s c) ?_ kv hkv
      intro kv2 hkv2
      rcases mem_insertA hkv2 with h | h
      · subst h; exact hc
      · exact hacc kv2 h
    | none =>
      rw [hc] at hkv
      exact ih acc hacc kv hkv

/-- A successful by-id lookup returns a control whose stored id is the
looked-up key. -/
theorem byID_lookup_id {e : List (String × List (String × ControlModel))}
    {cid : String} {ec : ControlModel}
    (h : lookupA (buildControlsByIDMap e) cid = some ec) : ec.id = some cid :=
  byID_id_eq_key e (cid, ec) (lookupA_mem h)

/-- On maps whose entries' names equal their keys — which is what both
decoders produce — the rename detector's accumulator never grows. -/
theorem detectGo_acc (stateSections : List (String × SectionModel))
    (hst : ∀ kv ∈ stateSections, kv.2.name = kv.1) :
    ∀ (pl : List (String × SectionModel)), (∀ kv ∈ pl, kv.2.name = kv.1) →
    ∀ acc, detectGo stateSections pl acc = acc := by
  intro pl
  induction pl with
  | nil => intro _ acc; simp [detectGo]
  | cons hd rest ih =>
    intro hpl acc
    obtain ⟨k, ps⟩ := hd
    have hps : ps.name = k := hpl (k, ps) (by simp)
    match hl : lookupA stateSections k with
    | some ss =>
      have hss : ss.name = k := hst (k, ss) (lookupA_mem hl)
      have hred : detectGo stateSections ((k, ps) :: rest) acc
          = detectGo stateSections rest acc := by
        simp [detectGo, hl, hss, hps]
      rw [hred]
      exact ih (fun kv hkv => hpl kv (List.mem_cons_of_mem _ hkv)) acc
    | none =>
      have hred : detectGo stateSections ((k, ps) :: rest) acc
          = detectGo stateSections rest acc := by
        simp [detectGo, hl]
      rw [hred]
      exact ih (fun kv hkv => hpl kv (List.mem_cons_of_mem _ hkv)) acc

/-! ## Structural lemmas about the reconciler's call lists -/

theorem noRenames_append (a b : List RemoteCall) :
    noRenames (a ++ b) = (noRenames a && noRenames b) := by
  simp [noRenames, List.all_append]

theorem noRenames_createNewControl (mint : Nat → String) (fid sName key : String)
    (pc : ControlModel) (n : Nat) :
    noRenames (createNewControl mint fid sName key pc n).2.1 = true := by
  cases hr : pc.rules with
  | none => simp [createNewControl, noRenames, isRenameCall, hr]
  | some l => cases l <;> simp [createNewControl, noRenames, isRenameCall, hr]

theorem noRenames_processOneControl (mint : Nat → String) (fid sName key : String)
    (pc : ControlModel) (byID : List (String × ControlModel)) (n : Nat) :
    noRenames (processOneControl mint fid sName key pc byID n).2.1 = true := by
  cases hid : pc.id with
  | none =>
    simp only [processOneControl, hid]
    exact noRenames_createNewControl mint fid sName key pc n
  | some cid =>
    cases hl : lookupA byID cid with
    | none =>
      simp only [processOneControl, hid, hl]
      exact noRenames_createNewControl mint fid sName key pc n
    | some ec =>
      by_cases he : ec.rules == pc.rules <;>
        simp [processOneControl, hid, hl, he, noRenames, isRenameCall]

theorem noRenames_processControls (mint : Nat → String) (fid sName : String)
    (byID : List (String × ControlModel)) :
    ∀ (pcs : List (String × ControlModel)) (n : Nat),
    noRenames (processControls mint fid sName byID pcs n).2.1 = true := by
  intro pcs
  induction pcs with
  | nil => intro n; simp [processControls, noRenames]
  | cons hd rest ih =>
    intro n
    obtain ⟨key, pc⟩ := hd
    simp only [processControls]
    rw [noRenames_append]
    simp [noRenames_processOneControl, ih]

theorem noRenames_processSections (mint : Nat → String) (fid : String)
    (byID : List (String × ControlModel)) :
    ∀ (secs : List (String × SectionModel)) (n : Nat),
    noRenames (processSections mint fid byID secs n).2.1 = true := by
  intro secs
  induction secs with
  | nil => intro n; simp [processSections, noRenames]
  | cons hd rest ih =>
    intro n
    obtain ⟨sName, sec⟩ := hd
    simp only [processSections]
    rw [noRenames_append]
    simp [noRenames_processControls, ih]

/-- Every call issued by `deleteRemovedControls` is a control delete. -/
theorem deleteRemoved_all_deletes (ex : List (String × List (String × ControlModel)))
    (plan : List (String × SectionModel)) :
    ∀ c ∈ deleteRemovedControls ex plan, ∃ ids, c = RemoteCall.deleteControl ids := by
  intro c hc
  simp only [deleteRemovedControls, List.mem_flatMap, List.mem_filterMap] at hc
  obtain ⟨sc, _, kv, _, hkv⟩ := hc
  by_cases hex : controlStillExists plan sc.1 kv.1
  · simp [hex] at hkv
  · simp [hex] at hkv
    exact ⟨_, hkv.symm⟩

theorem noRenames_deleteRemoved (ex : List (String × List (String × ControlModel)))
    (plan : List (String × SectionModel)) :
    noRenames (deleteRemovedControls ex plan) = true := by
  simp only [noRenames, List.all_eq_true]
  intro c hc
  obtain ⟨ids, rfl⟩ := deleteRemoved_all_deletes ex plan c hc
  simp [isRenameCall]

theorem noRenames_updateControlsForFramework (mint : Nat → String) (fid : String)
    (stateSections planSections : List (String × SectionModel)) :
    noRenames (updateControlsForFramework mint fid stateSections planSections).2 = true := by
  simp only [updateControlsForFramework, processControlUpdates]
  rw [noRenames_append]
  simp [noRenames_processSections, noRenames_deleteRemoved]

/-! ## Membership of the update-path calls -/

theorem matched_calls_mem_controls (mint : Nat → String) (fid sName : String)
    (byID : List (String × ControlModel)) {key : String} {pc : ControlModel}
    {cid : String} {ec : ControlModel}
    (hid : pc.id = some cid) (hl : lookupA byID cid = some ec) :
    ∀ (pcs : List (String × ControlModel)), (key, pc) ∈ pcs → ∀ n,
      RemoteCall.updateControl (ec.id.getD "") key
          ∈ (processControls mint fid sName byID pcs n).2.1
      ∧ ((ec.rules == pc.rules) = false →
          RemoteCall.replaceRules cid (pc.rules.getD [])
            ∈ (processControls mint fid sName byID pcs n).2.1) := by
  intro pcs
  induction pcs with
  | nil => intro h; simp at h
  | cons hd rest ih =>
    intro hmem n
    rcases List.mem_cons.mp hmem with heq | hmem2
    · subst heq
      have hone : (processOneControl mint fid sName key pc byID n).2.1
          = RemoteCall.updateControl (ec.id.getD "") key ::
            (if ec.rules == pc.rules then []
             else [RemoteCall.replaceRules cid (pc.rules.getD [])]) := by
        simp [processOneControl, hid, hl]
      simp only [processControls]
      constructor
      · rw [hone]
        simp
      · intro he
        rw [hone, if_neg (by simp [he])]
        simp
    · obtain ⟨key2, pc2⟩ := hd
      have hrec := ih hmem2 ((processOneControl mint fid sName key2 pc2 byID n).2.2)
      simp only [processControls]
      exact ⟨List.mem_append_right _ hrec.1,
        fun he => List.mem_append_right _ (hrec.2 he)⟩

theorem matched_calls_mem_sections (mint : Nat → String) (fid : String)
    (byID : List (String × ControlModel)) {sName : String} {pSec : SectionModel}
    {C : RemoteCall}
    (hC : ∀ n, C ∈ (processControls mint fid sName byID
      (convertTerraformSetToControlsMap pSec.controls) n).2.1) :
    ∀ (secs : List (String × SectionModel)), (sName, pSec) ∈ secs → ∀ n,
      C ∈ (processSections mint fid byID secs n).2.1 := by
  intro secs
  induction secs with
  | nil => intro h; simp at h
  | cons hd rest ih =>
    intro hmem n
    rcases List.mem_cons.mp hmem with heq | hmem2
    · subst heq
      simp only [processSections]
      exact List.mem_append_left _ (hC n)
    · obtain ⟨s2, sec2⟩ := hd
      simp only [processSections]
      exact List.mem_append_right _ (ih hmem2 _)

/-! ## Counting the rule-replacement calls -/

theorem countReplaceFor_append (x : String) (a b : List RemoteCall) :
    countReplaceFor x (a ++ b) = countReplaceFor x a + countReplaceFor x b := by
  simp [countReplaceFor, List.countP_append]

theorem countReplaceFor_createNewControl (mint : Nat → String) (fid sName key : String)
    (pc : ControlModel) (n : Nat) (x : String) (hm : mint n ≠ x) :
    countReplaceFor x (createNewControl mint fid sName key pc n).2.1 = 0 := by
  have hb : (mint n == x) = false := beq_eq_false_iff_ne.mpr hm
  cases hr : pc.rules with
  | none => simp [createNewControl, countReplaceFor, hr]
  | some l =>
    cases l with
    | nil => simp [createNewControl, countReplaceFor, hr]
    | cons r rs => simp [createNewControl, countReplaceFor, hr, hb]

/-- A plan control whose stored id is not `some x` never contributes. -/
theorem contrib_eq_zero (byID : List (String × ControlModel)) (x : String)
    {pc : ControlModel} (h : pc.id ≠ some x) : contrib byID x pc = 0 := by
  cases h2 : pc.id with
  | none => simp [contrib, h2]
  | some c2 =>
    have : c2 ≠ x := fun he => h (by rw [h2, he])
    simp [contrib, h2, this]

theorem countReplaceFor_processOneControl (mint : Nat → String) (fid sName key : String)
    (pc : ControlModel) (byID : List (String × ControlModel)) (n : Nat) (x : String)
    (hm : ∀ m, mint m ≠ x) :
    countReplaceFor x (processOneControl mint fid sName key pc byID n).2.1
      = contrib byID x pc := by
  cases hid : pc.id with
  | none =>
    rw [show processOneControl mint fid sName key pc byID n
        = createNewControl mint fid sName key pc n from by simp [processOneControl, hid]]
    rw [countReplaceFor_createNewControl mint fid sName key pc n x (hm n)]
    simp [contrib, hid]
  | some cid =>
    cases hl : lookupA byID cid with
    | none =>
      rw [show processOneControl mint fid sName key pc byID n
          = createNewControl mint fid sName key pc n from by simp [processOneControl, hid, hl]]
      rw [countReplaceFor_createNewControl mint fid sName key pc n x (hm n)]
      by_cases hcx : cid = x
      · subst hcx; simp [contrib, hid, hl]
      · simp [contrib, hid, hcx]
    | some ec =>
      by_cases hcx : cid = x
      · subst hcx
        by_cases he : ec.rules == pc.rules <;>
          simp [processOneControl, hid, hl, he, countReplaceFor, contrib, List.countP_cons]
      · have hb : (cid == x) = false := beq_eq_false_iff_ne.mpr hcx
        by_cases he : ec.rules == pc.rules <;>
          simp [processOneControl, hid, hl, he, hcx, hb, countReplaceFor, contrib,
            List.countP_cons]

theorem countReplaceFor_processControls (mint : Nat → String) (fid sName : String)
    (byID : List (String × ControlModel)) (x : String) (hm : ∀ m, mint m ≠ x) :
    ∀ (pcs : List (String × ControlModel)) (n : Nat),
    countReplaceFor x (processControls mint fid sName byID pcs n).2.1
      = (pcs.map (fun kv => contrib byID x kv.2)).sum := by
  intro pcs
  induction pcs with
  | nil => intro n; simp [processControls, countReplaceFor]
  | cons hd rest ih =>
    intro n
    obtain ⟨key, pc⟩ := hd
    simp only [processControls]
    rw [countReplaceFor_append,
      countReplaceFor_processOneControl mint fid sName key pc byID n x hm, ih]
    simp

theorem countReplaceFor_processSections (mint : Nat → String) (fid : String)
    (byID : List (String × ControlModel)) (x : String) (hm : ∀ m, mint m ≠ x) :
    ∀ (secs : List (String × SectionModel)) (n : Nat),
    countReplaceFor x (processSections mint fid byID secs n).2.1
      = ((secs.flatMap (fun sp => convertTerraformSetToControlsMap sp.2.controls)).map
          (fun kv => contrib byID x kv.2)).sum := by
  intro secs
  induction secs with
  | nil => intro n; simp [processSections, countReplaceFor]
  | cons hd rest ih =>
    intro n
    obtain ⟨sName, sec⟩ := hd
    simp only [processSections]
    rw [countReplaceFor_append,
      countReplaceFor_processControls mint fid sName byID x hm, ih]
    simp

theorem countReplaceFor_deleteRemoved (ex : List (String × List (String × ControlModel)))
    (plan : List (String × SectionModel)) (x : String) :
    countReplaceFor x (deleteRemovedControls ex plan) = 0 := by
  simp only [countReplaceFor]
  rw [List.countP_eq_zero]
  intro c hc
  obtain ⟨ids, rfl⟩ := deleteRemoved_all_deletes ex plan c hc
  simp

theorem sum_map_eq_filter {α : Type} (L : List α) (f : α → Nat) (p : α → Bool)
    (h : ∀ x ∈ L, p x = false → f x = 0) :
    (L.map f).sum = ((L.filter p).map f).sum := by
  induction L with
  | nil => simp
  | cons a l ih =>
    have ihl := ih (fun x hx => h x (List.mem_cons_of_mem _ hx))
    by_cases ha : p a
    · simp [List.filter_cons, ha, ihl]
    · have ha0 : f a = 0 := h a (by simp) (by simpa using ha)
      simp [List.filter_cons, ha, ha0, ihl]

theorem length_one_mem_eq {α : Type} {l : List α} {x : α}
    (h1 : l.length = 1) (h2 : x ∈ l) : l = [x] := by
  cases l with
  | nil => simp at h1
  | cons a t =>
    have ht : t = [] := by
      have h0 : t.length = 0 := by simpa using h1
      simpa [List.length_eq_zero] using h0
    subst ht
    have hx : x = a := by simpa using h2
    simp [hx]

/-! ## Codec round-trip lemmas -/

theorem insertA_of_not_mem_keys {α : Type} {m : List (String × α)} {k : String} (v : α)
    (h : k ∉ m.map Prod.fst) : insertA m k v = m ++ [(k, v)] := by
  induction m with
  | nil => simp [insertA]
  | cons hd tl ih =>
    obtain ⟨hk, hv⟩ := hd
    simp only [List.map_cons, List.mem_cons] at h
    push_neg at h
    have hne : ¬ hk = k := fun he => h.1 he.symm
    simp [insertA, hne, ih h.2]

theorem foldl_insertA_eq {α : Type} (f : α → String) :
    ∀ (l : List α) (acc : List (String × α)),
    (l.map f).Nodup → (∀ a ∈ l, f a ∉ acc.map Prod.fst) →
    l.foldl (fun m a => insertA m (f a) a) acc = acc ++ l.map (fun a => (f a, a)) := by
  intro l
  induction l with
  | nil => intro acc _ _; simp
  | cons a rest ih =>
    intro acc hnd hdis
    have hnd2 : (rest.map f).Nodup := by simpa using hnd.of_cons
    have hfa : f a ∉ rest.map f := by
      simp only [List.map_cons, List.nodup_cons] at hnd
      exact hnd.1
    simp only [List.foldl_cons]
    rw [insertA_of_not_mem_keys a (hdis a (by simp))]
    rw [ih (acc ++ [(f a, a)]) hnd2 ?_]
    · simp
    · intro b hb
      simp only [List.map_append, List.mem_append]
      push_neg
      refine ⟨hdis b (List.mem_cons_of_mem _ hb), ?_⟩
      have : f b ≠ f a := by
        intro he
        exact hfa (he ▸ List.mem_map_of_mem f hb)
      simpa using this

theorem roundtrip_controls (cs : List ControlModel) (h : (cs.map controlKey).Nodup) :
    convertControlsMapToTerraformSet (convertTerraformSetToControlsMap (some cs)) = cs := by
  simp only [convertTerraformSetToControlsMap]
  rw [foldl_insertA_eq controlKey cs [] h (by simp)]
  simp only [convertControlsMapToTerraformSet, List.nil_append, List.map_map]
  have hcomp : ((fun (kv : String × ControlModel) => kv.2) ∘ fun a => (controlKey a, a))
      = id := rfl
  rw [hcomp, List.map_id]

theorem decode_sections_eq (ss : List SectionModel) (h : (ss.map SectionModel.name).Nodup) :
    convertTerraformSetToSectionsMap (some ss) = ss.map (fun s => (s.name, s)) := by
  simp only [convertTerraformSetToSectionsMap]
  rw [foldl_insertA_eq SectionModel.name ss [] h (by simp)]
  simp

/-! ## Read-path section identifier lemmas -/

theorem readSectionId_cases (fw : String) (ex : List (String × SectionModel)) (n : String) :
    (match lookupA ex n with
     | some es =>
       match es.id with
       | some i => some i
       | none => some (generateDeterministicUUID fw n)
     | none => some (generateDeterministicUUID fw n)) = some (specSectionId fw ex n) := by
  simp only [specSectionId, generateDeterministicUUID]
  cases hl : lookupA ex n with
  | none => simp
  | some es =>
    cases hid : es.id with
    | none => simp [hid]
    | some i => simp [hid]

theorem buildReadSections_inv (fw : String) (ex : List (String × SectionModel))
    (s2c : List (String × List (String × ControlModel))) :
    ∀ kv ∈ buildReadSections fw ex s2c, kv.2.id = some (specSectionId fw ex kv.1) := by
  simp only [buildReadSections]
  suffices hgen : ∀ (l : List (String × List (String × ControlModel)))
      (acc : List (String × SectionModel)),
      (∀ kv ∈ acc, kv.2.id = some (specSectionId fw ex kv.1)) →
      ∀ kv ∈ l.foldl (fun m sc =>
          insertA m sc.1 (SectionModel.mk
            (match lookupA ex sc.1 with
             | some es =>
               match es.id with
               | some i => some i
               | none => some (generateDeterministicUUID fw sc.1)
             | none => some (generateDeterministicUUID fw sc.1)) sc.1
            (some (convertControlsMapToTerraformSet sc.2)))) acc,
        kv.2.id = some (specSectionId fw ex kv.1) by
    exact hgen s2c [] (by simp)
  intro l
  induction l with
  | nil => intro acc hacc kv hkv; exact hacc kv hkv
  | cons sc rest ih =>
    intro acc hacc kv hkv
    simp only [List.foldl_cons] at hkv
    refine ih _ ?_ kv hkv
    intro kv2 hkv2
    rcases mem_insertA hkv2 with h | h
    · subst h
      exact readSectionId_cases fw ex sc.1
    · exact hacc kv2 h

/-! ## No operation issues a bulk section rename -/

theorem noRenames_createSectionControls (mint : Nat → String) (fid sName : String) :
    ∀ (pcs : List (String × ControlModel)) (n : Nat),
    noRenames (createSectionControls mint fid sName pcs n).1 = true := by
  intro pcs
  induction pcs with
  | nil => intro n; simp [createSectionControls, noRenames]
  | cons hd rest ih =>
    intro n
    obtain ⟨key, pc⟩ := hd
    simp only [createSectionControls]
    rw [noRenames_append]
    simp [noRenames_createNewControl, ih]

theorem noRenames_createAllControls (mint : Nat → String) (fid : String) :
    ∀ (secs : List (String × SectionModel)) (n : Nat),
    noRenames (createAllControls mint fid secs n).1 = true := by
  intro secs
  induction secs with
  | nil => intro n; simp [createAllControls, noRenames]
  | cons hd rest ih =>
    intro n
    obtain ⟨sName, sec⟩ := hd
    simp only [createAllControls]
    rw [noRenames_append]
    simp [noRenames_createSectionControls, ih]

theorem noRenames_readControlsOp (env : RemoteEnv) (fw : String)
    (ex : Option (List SectionModel)) :
    noRenames (readControlsOp env fw ex).2 = true := by
  simp only [noRenames, List.all_eq_true]
  intro c hc
  simp only [readControlsOp] at hc
  by_cases hids : (env.queryControls fw).isEmpty
  · simp [hids] at hc
    simp [hc, isRenameCall]
  · simp [hids] at hc
    rcases hc with rfl | rfl | ⟨a, _, rfl⟩ <;> simp [isRenameCall]

theorem map_eq_self {α : Type} {l : List α} {f : α → α} (h : ∀ a ∈ l, f a = a) :
    l.map f = l := by
  induction l with
  | nil => rfl
  | cons a t ih =>
    simp only [List.map_cons, h a (by simp),
      ih (fun b hb => h b (List.mem_cons_of_mem _ hb))]

/-! ## The claims -/

/-- C1.  The claim states that when an observed control with identifier `X`
also appears in the desired tree with identifier `X` (possibly under a
different name or section), no control-delete call is issued for it.  The
code violates this: for a pure cross-section move (`S1` to `S2`, name,
description and rules unchanged, identifier kept) the reconciler updates
the control and keeps identifier `X` in its output, but
`deleteRemovedControls` then issues a control-delete for `X`, because its
survival test looks the state control's key up under the state section's
name instead of matching by identifier across sections.  This theorem
evaluates the model at that failing input: the output retains identifier
`X` and no create is issued, yet the trace ends with a delete of `X`. -/
theorem c1_section_move_issues_delete :
    updateControlsForFramework mintDefault "fid" oneControlState sectionMovePlan
      = ([("S2", SectionModel.mk none "S2"
            (some [ControlModel.mk (some "X") "X" "d" (some [])]))],
         [RemoteCall.updateControl "X" "X", RemoteCall.deleteControl ["X"]]) := by
  decide

/-- C2.  The claim states that renaming a section containing two controls
(each desired control carrying its existing identifier) produces zero
control-delete calls.  The code issues per-control update calls and keeps
both identifiers in its output, but then also issues one delete call for
each of the two controls, because the renamed section's old name is no
longer a plan section, so `deleteRemovedControls` treats both controls as
removed.  This theorem evaluates the model at that failing input. -/
theorem c2_section_rename_issues_deletes :
    updateControlsForFramework mintDefault "fid" twoControlState sectionRenamePlan
      = ([("T", SectionModel.mk none "T"
            (some [ControlModel.mk (some "A") "A" "da" (some []),
                   ControlModel.mk (some "B") "B" "db" (some [])]))],
         [RemoteCall.updateControl "A" "A", RemoteCall.updateControl "B" "B",
          RemoteCall.deleteControl ["A"], RemoteCall.deleteControl ["B"]]) := by
  decide

/-- C3, counterexample.  The claim states that a control-update call is
issued only when the desired name or section name differs from the observed
values.  Here the desired tree is identical to the observed tree (same
name, same section, same rules), so the claim demands zero control-update
calls; the code issues one anyway, because `updateExistingControl` is
called unconditionally on every identifier match. -/
theorem c3_counterexample :
    (updateControlsForFramework mintDefault "fid" rulesState rulesState).2
      = [RemoteCall.updateControl "X" "X"] := by
  decide

/-- C3, amended.  For every desired control that matches an observed
control by identifier, one remote control-update call is issued
unconditionally — also when neither the name nor the section differs; and
in the only-the-rule-set-changed scenario the code issues exactly one
control-update call and one wholesale rule-replacement call with the empty
set, and zero creates and deletes (rather than the claimed zero update
calls). -/
theorem c3_update_always_issued :
    (∀ (mint : Nat → String) (fid : String)
        (stateSections planSections : List (String × SectionModel))
        (sName : String) (pSec : SectionModel) (key : String) (pc : ControlModel)
        (cid : String) (ec : ControlModel),
      (sName, pSec) ∈ planSections →
      (key, pc) ∈ convertTerraformSetToControlsMap pSec.controls →
      pc.id = some cid →
      lookupA (buildControlsByIDMap (buildExistingControlsMap stateSections)) cid = some ec →
      RemoteCall.updateControl cid key
        ∈ (updateControlsForFramework mint fid stateSections planSections).2)
    ∧ (updateControlsForFramework mintDefault "fid" rulesState rulesClearedPlan).2
        = [RemoteCall.updateControl "X" "X", RemoteCall.replaceRules "X" []] := by
  constructor
  · intro mint fid stateSections planSections sName pSec key pc cid ec hsec hctl hid hl
    have hidec : ec.id = some cid := byID_lookup_id hl
    have hmemc := matched_calls_mem_controls mint fid sName
      (buildControlsByIDMap (buildExistingControlsMap stateSections)) hid hl
      (convertTerraformSetToControlsMap pSec.controls) hctl
    have hmem := matched_calls_mem_sections mint fid
      (buildControlsByIDMap (buildExistingControlsMap stateSections))
      (fun n => (hmemc n).1) planSections hsec 0
    simp only [updateControlsForFramework, processControlUpdates]
    refine List.mem_append_left _ ?_
    have hgd : ec.id.getD "" = cid := by rw [hidec]; rfl
    rw [← hgd]
    exact hmem
  · decide

/-- C4, counterexample.  The claim states that no rule-replacement call is
issued when the desired and observed rule sets are set-equal.  Here the two
rule collections hold the same two elements in opposite stored orders, so
they are set-equal, yet the code issues a replacement call:
`types.Set.Equal` compares the stored element lists index by index. -/
theorem c4_counterexample :
    specRulesSetEq (some ["r1", "r2"]) (some ["r2", "r1"]) = true
    ∧ (updateControlsForFramework mintDefault "fid" rulesState rulesReorderedPlan).2
        = [RemoteCall.updateControl "X" "X",
           RemoteCall.replaceRules "X" ["r2", "r1"]] := by
  exact ⟨by decide, by decide⟩

/-- C4, amended.  For a desired control matching an observed control by
identifier (with that identifier unique in the plan and never minted for a
create), exactly one wholesale rule-replacement call carrying the desired
rule collection (the empty list when it is null or empty) is issued when
the stored rule element lists differ — by length, by element, by order, or
by null-ness — and no replacement call is issued for that control when the
stored lists are equal.  This is the source's `types.Set.Equal` comparison;
set equality of the claim holds only in the forward direction (set-unequal
lists are list-unequal). -/
theorem c4_replace_iff_stored_lists_differ :
    ∀ (mint : Nat → String) (fid : String)
      (stateSections planSections : List (String × SectionModel))
      (sName : String) (pSec : SectionModel) (key : String) (pc : ControlModel)
      (cid : String) (ec : ControlModel),
      (sName, pSec) ∈ planSections →
      (key, pc) ∈ convertTerraformSetToControlsMap pSec.controls →
      pc.id = some cid →
      lookupA (buildControlsByIDMap (buildExistingControlsMap stateSections)) cid = some ec →
      (∀ m, mint m ≠ cid) →
      (planControlsFlat planSections).countP (fun kv => kv.2.id == some cid) = 1 →
      countReplaceFor cid (updateControlsForFramework mint fid stateSections planSections).2
          = (if ec.rules == pc.rules then 0 else 1)
      ∧ ((ec.rules == pc.rules) = false →
          RemoteCall.replaceRules cid (pc.rules.getD [])
            ∈ (updateControlsForFramework mint fid stateSections planSections).2) := by
  intro mint fid stateSections planSections sName pSec key pc cid ec hsec hctl hid hl hm hcount
  simp only [planControlsFlat] at hcount
  constructor
  · simp only [updateControlsForFramework, processControlUpdates]
    rw [countReplaceFor_append, countReplaceFor_deleteRemoved, Nat.add_zero]
    rw [countReplaceFor_processSections mint fid
      (buildControlsByIDMap (buildExistingControlsMap stateSections)) cid hm planSections 0]
    have hmemL : (key, pc) ∈ planSections.flatMap
        (fun sp => convertTerraformSetToControlsMap sp.2.controls) :=
      List.mem_flatMap.mpr ⟨(sName, pSec), hsec, hctl⟩
    have hzero : ∀ x ∈ planSections.flatMap
        (fun sp => convertTerraformSetToControlsMap sp.2.controls),
        (fun kv : String × ControlModel => kv.2.id == some cid) x = false →
        (fun kv : String × ControlModel => contrib
          (buildControlsByIDMap (buildExistingControlsMap stateSections)) cid kv.2) x = 0 := by
      intro x _ hx
      refine contrib_eq_zero _ _ ?_
      intro he
      have hx2 : (x.2.id == some cid) = false := hx
      rw [he] at hx2
      simp at hx2
    rw [sum_map_eq_filter _ _ _ hzero]
    have hflen : ((planSections.flatMap
        (fun sp => convertTerraformSetToControlsMap sp.2.controls)).filter
          (fun kv => kv.2.id == some cid)).length = 1 := by
      rw [← List.countP_eq_length_filter]
      exact hcount
    have hfmem : (key, pc) ∈ (planSections.flatMap
        (fun sp => convertTerraformSetToControlsMap sp.2.controls)).filter
          (fun kv => kv.2.id == some cid) :=
      List.mem_filter.mpr ⟨hmemL, by simp [hid]⟩
    rw [length_one_mem_eq hflen hfmem]
    simp [contrib, hid, hl]
  · intro he
    have hmemc := matched_calls_mem_controls mint fid sName
      (buildControlsByIDMap (buildExistingControlsMap stateSections)) hid hl
      (convertTerraformSetToControlsMap pSec.controls) hctl
    have hmem := matched_calls_mem_sections mint fid
      (buildControlsByIDMap (buildExistingControlsMap stateSections))
      (fun n => (hmemc n).2 he) planSections hsec 0
    simp only [updateControlsForFramework, processControlUpdates]
    exact List.mem_append_left _ hmem

/-- Witness for the amended C3 at a concrete input. -/
theorem c3_update_always_issued_witness :
    RemoteCall.updateControl "X" "X"
      ∈ (updateControlsForFramework mintDefault "fid" rulesState rulesClearedPlan).2 :=
  c3_update_always_issued.1 mintDefault "fid" rulesState rulesClearedPlan "S1"
    (SectionModel.mk (some "sid") "S1"
      (some [ControlModel.mk (some "X") "a" "d" (some [])]))
    "X" (ControlModel.mk (some "X") "a" "d" (some [])) "X"
    (ControlModel.mk (some "X") "a" "d" (some ["r1", "r2"]))
    (by decide) (by decide) (by decide) (by decide)

/-- Witness for the amended C4 at a concrete input. -/
theorem c4_replace_iff_stored_lists_differ_witness :
    countReplaceFor "X" (updateControlsForFramework mintY "fid" rulesState rulesReorderedPlan).2
        = (if (some ["r1", "r2"] : Option (List String)) == some ["r2", "r1"] then 0 else 1)
    ∧ (((some ["r1", "r2"] : Option (List String)) == some ["r2", "r1"]) = false →
        RemoteCall.replaceRules "X" ((some ["r2", "r1"] : Option (List String)).getD [])
          ∈ (updateControlsForFramework mintY "fid" rulesState rulesReorderedPlan).2) :=
  c4_replace_iff_stored_lists_differ mintY "fid" rulesState rulesReorderedPlan "S1"
    (SectionModel.mk (some "sid") "S1"
      (some [ControlModel.mk (some "X") "a" "d" (some ["r2", "r1"])]))
    "X" (ControlModel.mk (some "X") "a" "d" (some ["r2", "r1"])) "X"
    (ControlModel.mk (some "X") "a" "d" (some ["r1", "r2"]))
    (by decide) (by decide) (by decide) (by decide)
    (fun _ => by unfold mintY; decide) (by decide)

/-- C5.  Transitioning the active flag from `true` to `false` fails
validation before any remote call is made — the whole update is rejected
with an empty call trace — while an update whose current active value is
`false` passes validation and proceeds (`false` to `true` and `false` to
`false` alike). -/
theorem c5_active_transition :
    ∀ (env : RemoteEnv) (state plan : FrameworkModel),
      (state.active = some true → plan.active = some false →
        updateOp env state plan = ([], false))
      ∧ (state.active = some false → (updateOp env state plan).2 = true) := by
  intro env state plan
  constructor
  · intro hs hp
    simp [updateOp, validateActiveFieldTransition, hs, hp]
  · intro hs
    have hv : validateActiveFieldTransition state.active plan.active = false := by
      simp [validateActiveFieldTransition, hs]
    simp only [updateOp, hv, Bool.false_eq_true, if_false]
    cases plan.sections with
    | some l => simp
    | none => cases state.sections <;> simp

/-- Witness for C5 at concrete inputs: a `true` to `false` update is
rejected with no calls; a `false` to `true` update is accepted. -/
theorem c5_active_transition_witness :
    updateOp envTrivial fwActiveTrue fwActiveFalse = ([], false)
    ∧ (updateOp envTrivial fwActiveFalse fwActiveTrue).2 = true :=
  ⟨(c5_active_transition envTrivial fwActiveTrue fwActiveFalse).1 rfl rfl,
   (c5_active_transition envTrivial fwActiveFalse fwActiveTrue).2 rfl⟩

/-- C6, counterexample.  The claim's round trip fails on a tree whose
section names are unique and whose control names are unique within their
section: two controls that share an identifier collapse to one map entry,
because the decode direction keys controls by identifier (falling back to
name only when the identifier string is empty), not by name as the claim
states. -/
theorem c6_counterexample :
    ([ControlModel.mk (some "x") "a" "d" none,
      ControlModel.mk (some "x") "b" "d" none].map ControlModel.name).Nodup
    ∧ encodeTree (decodeTree (some [SectionModel.mk (some "sid") "S"
        (some [ControlModel.mk (some "x") "a" "d" none,
               ControlModel.mk (some "x") "b" "d" none])]))
        ≠ some [SectionModel.mk (some "sid") "S"
            (some [ControlModel.mk (some "x") "a" "d" none,
                   ControlModel.mk (some "x") "b" "d" none])]
    ∧ controlKey (ControlModel.mk (some "x") "a" "d" none) ≠ "a" := by
  refine ⟨by decide, by decide, by decide⟩

/-- C6, amended.  Sections are keyed by name; controls are keyed by their
identifier when it is present and non-empty, by name otherwise.  For every
client tree whose section names are unique and whose per-section control
keys (so computed) are unique, decoding into maps and re-encoding
reproduces the tree exactly. -/
theorem c6_roundtrip_amended :
    ∀ (ss : List SectionModel),
      (ss.map SectionModel.name).Nodup →
      (∀ s ∈ ss, s.controls ≠ none ∧ (((s.controls.getD []).map controlKey)).Nodup) →
      encodeTree (decodeTree (some ss)) = some ss := by
  intro ss hnd hcs
  simp only [decodeTree, encodeTree]
  rw [decode_sections_eq ss hnd]
  simp only [List.map_map, convertSectionsMapToTerraformSet]
  refine congrArg some ?_
  refine map_eq_self ?_
  intro s hs
  obtain ⟨hne, hndc⟩ := hcs s hs
  cases s with
  | mk sid sname scontrols =>
    cases scontrols with
    | none => exact absurd rfl hne
    | some cs =>
      have hndc2 : (cs.map controlKey).Nodup := by simpa using hndc
      simp [Function.comp, roundtrip_controls cs hndc2]

/-- Witness for the amended C6 at a concrete two-section tree. -/
theorem c6_roundtrip_amended_witness :
    encodeTree (decodeTree (some [SectionModel.mk (some "s1") "S1"
        (some [ControlModel.mk (some "x") "a" "d" (some ["r1"]),
               ControlModel.mk none "b" "d2" none]),
      SectionModel.mk none "S2"
        (some [ControlModel.mk (some "y") "c" "d3" (some [])])]))
      = some [SectionModel.mk (some "s1") "S1"
          (some [ControlModel.mk (some "x") "a" "d" (some ["r1"]),
                 ControlModel.mk none "b" "d2" none]),
        SectionModel.mk none "S2"
          (some [ControlModel.mk (some "y") "c" "d3" (some [])])] :=
  c6_roundtrip_amended _ (by decide) (by decide)

/-- C7.  Every section in the output of a read carries as identifier the
one recorded in the prior state for a section of the same name when such a
recorded identifier exists, and otherwise the version-5 (SHA-1) UUID of
`"<frameworkName>:<sectionName>"` under the fixed namespace constant; the
derivation is the pure function `generateDeterministicUUID`, so equal name
pairs always yield equal identifiers. -/
theorem c7_read_section_identifiers :
    (∀ (env : RemoteEnv) (fw : String) (prior : Option (List SectionModel)),
      ((readControlsOp env fw prior).1).all
        (fun s => s.id == some (specSectionId fw
          (convertTerraformSetToSectionsMap prior) s.name)) = true)
    ∧ ∀ (fwName sName : String),
        generateDeterministicUUID fwName sName
          = uuidVersion5 complianceNamespaceBytes
              (utf8Bytes (fwName ++ ":" ++ sName)) := by
  constructor
  · intro env fw prior
    simp only [List.all_eq_true]
    intro s hs
    simp only [readControlsOp] at hs
    by_cases hids : (env.queryControls fw).isEmpty
    · simp [hids] at hs
    · simp only [hids, Bool.false_eq_true, if_false] at hs
      simp only [convertSectionsMapToTerraformSet, List.mem_map] at hs
      obtain ⟨kv, hkv, rfl⟩ := hs
      have hinv := buildReadSections_inv fw
        (convertTerraformSetToSectionsMap prior) _ kv hkv
      simp [hinv]
  · intro fwName sName
    rfl

/-- C8.  In the Create event trace, the durable persist of the
remote-assigned framework identifier occurs, and no control-create or
rule-assignment call precedes it. -/
theorem c8_persist_before_control_ops :
    ∀ (env : RemoteEnv) (plan : FrameworkModel),
      ((createOp env plan).takeWhile (fun e => !isPersistEvent e)).all
        (fun e => !isControlOpEvent e) = true
      ∧ (createOp env plan).any (fun e => isPersistEvent e) = true := by
  intro env plan
  constructor
  · simp [createOp, List.takeWhile_cons, isPersistEvent, isControlOpEvent]
  · simp [createOp, isPersistEvent]

/-- C9.  Deleting a framework whose name-based control query returns the
ids of its `N` controls issues exactly one controls-delete call covering
all of them, followed by exactly one framework-delete call; a failed
controls-delete only adds a warning and does not abort, and a `NotFound`
framework delete is treated as success. -/
theorem c9_delete_trace :
    ∀ (ids : List String) (controlsDeleteOk : Bool) (fwRes : DeleteOutcome)
      (st : FrameworkModel), fwRes ≠ DeleteOutcome.failure →
      deleteOp (Except.ok ids) controlsDeleteOk fwRes st
        = ([RemoteCall.queryControls st.name, RemoteCall.deleteControl ids,
            RemoteCall.deleteFramework (st.id.getD "")], true,
           if controlsDeleteOk then [] else ["Error Deleting Controls"]) := by
  intro ids ok fwRes st hne
  cases fwRes with
  | success => rfl
  | notFound => rfl
  | failure => exact absurd rfl hne

/-- Witness for C9: two controls, a failing controls-delete, and a
`NotFound` framework delete still produce the full two-call teardown and
overall success, with the warning recorded. -/
theorem c9_delete_trace_witness :
    deleteOp (Except.ok ["c1", "c2"]) false DeleteOutcome.notFound fwActiveFalse
      = ([RemoteCall.queryControls "n", RemoteCall.deleteControl ["c1", "c2"],
          RemoteCall.deleteFramework "id1"], true, ["Error Deleting Controls"]) :=
  c9_delete_trace ["c1", "c2"] false DeleteOutcome.notFound fwActiveFalse (by decide)

/-- C10.  On section maps produced by the set-to-map decoder — in which
every entry's name equals its key — the rename detector returns the empty
map, and the rename-handling path would issue no call even if invoked; and
none of the four public operations issues a bulk section-rename call, since
none of them invokes the rename-handling path at all. -/
theorem c10_no_section_rename :
    (∀ (sSet pSet : Option (List SectionModel)),
      detectSectionRenames (convertTerraformSetToSectionsMap sSet)
        (convertTerraformSetToSectionsMap pSet) = [])
    ∧ (∀ (fid : String) (sSet pSet : Option (List SectionModel)),
      handleSectionRenames fid (convertTerraformSetToSectionsMap sSet)
        (convertTerraformSetToSectionsMap pSet) = [])
    ∧ (∀ (env : RemoteEnv) (plan : FrameworkModel),
      ((createOp env plan).filterMap eventCall).all (fun c => !isRenameCall c) = true)
    ∧ (∀ (env : RemoteEnv) (st : FrameworkModel),
      noRenames (readOp env st).2 = true)
    ∧ (∀ (env : RemoteEnv) (st plan : FrameworkModel),
      noRenames (updateOp env st plan).1 = true)
    ∧ (∀ (queryRes : Except Unit (List String)) (controlsDeleteOk : Bool)
        (fwRes : DeleteOutcome) (st : FrameworkModel),
      noRenames (deleteOp queryRes controlsDeleteOk fwRes st).1 = true) := by
  have hdetect : ∀ (sSet pSet : Option (List SectionModel)),
      detectSectionRenames (convertTerraformSetToSectionsMap sSet)
        (convertTerraformSetToSectionsMap pSet) = [] := by
    intro sSet pSet
    simp only [detectSectionRenames]
    exact detectGo_acc (convertTerraformSetToSectionsMap sSet)
      (sectionsMap_name_eq_key sSet) (convertTerraformSetToSectionsMap pSet)
      (sectionsMap_name_eq_key pSet) []
  refine ⟨hdetect, ?_, ?_, ?_, ?_, ?_⟩
  · intro fid sSet pSet
    simp [handleSectionRenames, hdetect sSet pSet]
  · intro env plan
    simp only [List.all_eq_true]
    intro c hc
    simp only [List.mem_filterMap] at hc
    obtain ⟨e, he, hec⟩ := hc
    simp only [createOp, List.mem_cons] at he
    rcases he with rfl | rfl | he
    · simp only [eventCall, Option.some.injEq] at hec
      subst hec
      simp [isRenameCall]
    · simp [eventCall] at hec
    · cases hps : plan.sections with
      | none => rw [hps] at he; simp at he
      | some l =>
        rw [hps] at he
        simp only [List.mem_map] at he
        obtain ⟨c2, hc2, rfl⟩ := he
        simp only [eventCall, Option.some.injEq] at hec
        subst hec
        have hall := noRenames_createAllControls env.mint env.frameworkId
          (convertTerraformSetToSectionsMap (some l)) 0
        simp only [noRenames, List.all_eq_true] at hall
        exact hall c2 hc2
  · intro env st
    have h := noRenames_readControlsOp env env.remoteName st.sections
    simp only [noRenames, List.all_eq_true] at h ⊢
    simp only [readOp]
    intro c hc
    rcases List.mem_cons.mp hc with rfl | hc2
    · simp [isRenameCall]
    · exact h c hc2
  · intro env st plan
    by_cases hv : validateActiveFieldTransition st.active plan.active
    · simp [updateOp, hv, noRenames]
    · have hv2 : validateActiveFieldTransition st.active plan.active = false := by
        simpa using hv
      simp only [updateOp, hv2, Bool.false_eq_true, if_false]
      cases plan.sections with
      | some l =>
        simp only [noRenames, List.all_eq_true]
        intro c hc
        rcases List.mem_cons.mp hc with rfl | hc2
        · simp [isRenameCall]
        · rcases List.mem_append.mp hc2 with hca | hcb
          · have h1 := noRenames_updateControlsForFramework env.mint (plan.id.getD "")
              (convertTerraformSetToSectionsMap st.sections)
              (convertTerraformSetToSectionsMap (some l))
            simp only [noRenames, List.all_eq_true] at h1
            exact h1 c hca
          · have h2 := noRenames_readControlsOp env plan.name st.sections
            simp only [noRenames, List.all_eq_true] at h2
            exact h2 c hcb
      | none =>
        cases st.sections with
        | some l2 =>
          simp [noRenames, deleteControlsForFrameworkCalls, isRenameCall]
        | none => simp [noRenames, isRenameCall]
  · intro queryRes controlsDeleteOk fwRes st
    cases queryRes with
    | error e => simp [deleteOp, noRenames, isRenameCall]
    | ok ids => cases fwRes <;> simp [deleteOp, noRenames, isRenameCall]

end CustomFramework
